import Mathlib

/-!
Shallow embedding of the ingestion service in `src/index.js`:
an Express application with a bearer-token `auth` middleware, an
optional IP allowlist, a `/health` endpoint, and a `POST /ingest`
handler that runs a users-upsert followed by a messages-insert
inside one database transaction.

The embedding is sequential: each request is a pure function from
the configuration, a database-failure oracle, the current store
contents and the request to the next store contents and the HTTP
response.  `BEGIN`/`COMMIT`/`ROLLBACK` are modelled by snapshotting
the store at the start of the transaction and restoring the
snapshot on failure.
-/

namespace Ingest

/-- A JSON scalar as it appears in a parsed request body
(`req.body` fields are arbitrary JSON values). -/
inductive JsValue where
  | vNull : JsValue
  | vBool : Bool → JsValue
  | vNum : Int → JsValue
  | vStr : String → JsValue
deriving DecidableEq, Repr

/-- JavaScript truthiness of a JSON scalar: `null`, `false`, `0`
and `""` are falsy, everything else is truthy. -/
def JsValue.truthy : JsValue → Bool
  | .vNull => false
  | .vBool b => b
  | .vNum n => n != 0
  | .vStr s => s != ""

/-- Truthiness of a possibly-absent value: `undefined` is falsy. -/
def jsTruthy : Option JsValue → Bool
  | none => false
  | some v => v.truthy

/-- JavaScript `x || null` on a possibly-absent value, as used in
`displayName || null` at src/index.js line 97. -/
def jsOrNull : Option JsValue → JsValue
  | none => .vNull
  | some v => if v.truthy then v else .vNull

/-- JavaScript `a || b` where `a` is a possibly-absent string and
`b` a string: returns `a` when present and non-empty. -/
def jsOrStr : Option String → String → String
  | none, b => b
  | some s, b => if s = "" then b else s

/-- JavaScript falsiness of a possibly-absent string
(`!API_TOKEN` is true when the variable is unset or empty). -/
def jsStrFalsy : Option String → Bool
  | none => true
  | some s => s = ""

/-- The fields the `/ingest` handler destructures from `req.body`
(src/index.js line 84).  Each is absent or a JSON scalar. -/
structure Body where
  userId : Option JsValue
  username : Option JsValue
  displayName : Option JsValue
  message : Option JsValue
deriving DecidableEq, Repr

/-- The `{}` object that `req.body || {}` falls back to. -/
def Body.empty : Body := ⟨none, none, none, none⟩

/-- The parts of an HTTP request the application reads: method,
path, the `authorization` and `x-forwarded-for` headers, the
socket peer address, and the parsed JSON body (`none` when no
body was parsed). -/
structure Request where
  method : String
  path : String
  authorization : Option String
  xForwardedFor : Option String
  remoteAddress : Option String
  body : Option Body
deriving DecidableEq, Repr

/-- The environment variables the request path reads:
`API_TOKEN` and `ALLOW_IPS` (each possibly unset). -/
structure Env where
  apiToken : Option String
  allowIps : Option String
deriving DecidableEq, Repr

/-- A row of the `users` table: `id PRIMARY KEY, username,
display_name`. -/
structure UserRow where
  id : JsValue
  username : JsValue
  display_name : JsValue
deriving DecidableEq, Repr

/-- A row of the `messages` table: `user_id, message, ts`.
The timestamp is an abstract server clock value. -/
structure MessageRow where
  user_id : JsValue
  message : JsValue
  ts : Nat
deriving DecidableEq, Repr

/-- The visible contents of the relational store. -/
structure Store where
  users : List UserRow
  messages : List MessageRow
deriving DecidableEq, Repr

/-- A JSON document, for the response bodies the service emits. -/
inductive Json where
  | jNull : Json
  | jBool : Bool → Json
  | jNum : Int → Json
  | jStr : String → Json
  | jArr : List Json → Json
  | jObj : List (String × Json) → Json

/-- An HTTP response: status code and body. -/
structure Response where
  status : Nat
  body : Json

/-- Whether the character sequence `l` starts with `p`
(the semantics of JavaScript `String.prototype.startsWith`). -/
def charStartsWith (l p : List Char) : Bool :=
  l.take p.length == p

/-- `s.startsWith(p)` over the characters of `s`. -/
def strStartsWith (s p : String) : Bool :=
  charStartsWith s.data p.data

/-- `s.slice(n)` for a non-negative `n`: drop the first `n`
characters. -/
def strDrop (s : String) (n : Nat) : String :=
  ⟨s.data.drop n⟩

/-- Remove leading and trailing whitespace from a character
sequence (the semantics of JavaScript `String.prototype.trim`). -/
def trimChars (l : List Char) : List Char :=
  ((l.dropWhile Char.isWhitespace).reverse.dropWhile Char.isWhitespace).reverse

/-- `s.trim()` over the characters of `s`. -/
def strTrim (s : String) : String :=
  ⟨trimChars s.data⟩

/-- Split a character sequence at commas; the empty sequence
yields one empty field, like JavaScript `''.split(',')`. -/
def splitOnComma : List Char → List (List Char)
  | [] => [[]]
  | c :: rest =>
    match splitOnComma rest with
    | [] => [[c]]
    | h :: t => if c = ',' then [] :: h :: t else (c :: h) :: t

/-- `s.split(',')` over the characters of `s`. -/
def strSplitComma (s : String) : List String :=
  (splitOnComma s.data).map (fun l => ⟨l⟩)

/-- Token extraction in the `auth` middleware, src/index.js
lines 47-48: read the `authorization` header (defaulting to
`""`) and strip a `Bearer `-scheme prefix; any other shape
yields the empty token. -/
def bearerToken (req : Request) : String :=
  let h := req.authorization.getD ""
  if strStartsWith h "Bearer " then strDrop h 7 else ""

/-- The `auth` middleware, src/index.js lines 46-53: reject with
401 unless a token is configured (`!API_TOKEN`) and the extracted
token matches it exactly (`token !== API_TOKEN`). -/
def auth (apiToken : Option String) (req : Request) : Bool :=
  if jsStrFalsy apiToken = true ∨ some (bearerToken req) ≠ apiToken then false
  else true

/-- `ALLOW_IPS` parsing, src/index.js line 57:
`(ALLOW_IPS || '').split(',').map(trim).filter(Boolean)`. -/
def allowIpsList (allowIps : Option String) : List String :=
  ((strSplitComma (allowIps.getD "")).map strTrim).filter (fun s => s ≠ "")

/-- Client address extraction, src/index.js line 59:
`(req.headers['x-forwarded-for'] || req.socket.remoteAddress || '')
.split(',')[0].trim()`. -/
def clientIp (req : Request) : String :=
  strTrim ((strSplitComma (jsOrStr req.xForwardedFor (jsOrStr req.remoteAddress ""))).headD "")

/-- The `ipAllowed` check, src/index.js lines 56-61: an empty
configured list allows everything, otherwise the extracted client
address must be in the list. -/
def ipAllowed (allowIps : Option String) (req : Request) : Bool :=
  let list := allowIpsList allowIps
  if list.length = 0 then true
  else list.contains (clientIp req)

/-- Field validation, src/index.js line 85:
`!userId || !username || !message`. -/
def validBody (b : Body) : Bool :=
  jsTruthy b.userId && jsTruthy b.username && jsTruthy b.message

/-- The users upsert, src/index.js lines 92-98:
`INSERT INTO users (id, username, display_name) VALUES ($1,$2,$3)
ON CONFLICT (id) DO UPDATE SET username = EXCLUDED.username,
display_name = EXCLUDED.display_name`. -/
def upsertUser (st : Store) (uid un dn : JsValue) : Store :=
  if st.users.any (fun u => u.id = uid) then
    { st with users :=
        st.users.map (fun u =>
          if u.id = uid then { u with username := un, display_name := dn } else u) }
  else
    { st with users := st.users ++ [⟨uid, un, dn⟩] }

/-- The messages insert, src/index.js lines 100-104:
`INSERT INTO messages (user_id, message, ts) VALUES ($1,$2,NOW())`. -/
def insertMessage (st : Store) (uid msg : JsValue) (now : Nat) : Store :=
  { st with messages := st.messages ++ [⟨uid, msg, now⟩] }

/-- Failure injection for the two statements of the ingest
transaction: whether the users upsert and the messages insert
raise a database error. -/
structure DbOracle where
  upsertFails : Bool
  insertFails : Bool
deriving DecidableEq, Repr

/-- Fixed response bodies of the service. -/
def unauthorizedJson : Json := .jObj [("error", .jStr "unauthorized")]

def forbiddenIpJson : Json := .jObj [("error", .jStr "forbidden_ip")]

def missingFieldsJson : Json :=
  .jObj [("error", .jStr "missing fields"),
         ("required", .jArr [.jStr "userId", .jStr "username", .jStr "message"])]

def serverErrorJson : Json := .jObj [("error", .jStr "server_error")]

def okJson : Json := .jObj [("ok", .jBool true)]

def healthFailJson : Json :=
  .jObj [("ok", .jBool false), ("error", .jStr "db_unreachable")]

def notFoundJson : Json := .jObj [("error", .jStr "not_found")]

def greetingText : Json := .jStr "API de seguridad Roblox corriendo 🚀"

/-- The transaction body of the `/ingest` handler, src/index.js
lines 89-112: `BEGIN`, upsert the user, insert the message,
`COMMIT`; on any statement failure, `ROLLBACK` (restoring the
snapshot taken at `BEGIN`) and respond 500 `server_error`. -/
def ingestTxn (oracle : DbOracle) (now : Nat) (st : Store) (b : Body) :
    Store × Response :=
  if oracle.upsertFails then (st, ⟨500, serverErrorJson⟩)
  else
    let st1 := upsertUser st (b.userId.getD .vNull) (b.username.getD .vNull)
        (jsOrNull b.displayName)
    if oracle.insertFails then (st, ⟨500, serverErrorJson⟩)
    else (insertMessage st1 (b.userId.getD .vNull) (b.message.getD .vNull) now,
          ⟨200, okJson⟩)

/-- The `/ingest` handler body, src/index.js lines 81-113 (after
the `auth` middleware): IP allowlist check, destructure
`req.body || {}`, required-field validation, then the
transaction. -/
def ingestHandler (env : Env) (oracle : DbOracle) (now : Nat) (st : Store)
    (req : Request) : Store × Response :=
  if !ipAllowed env.allowIps req then (st, ⟨403, forbiddenIpJson⟩)
  else
    let b := req.body.getD Body.empty
    if !validBody b then (st, ⟨400, missingFieldsJson⟩)
    else ingestTxn oracle now st b

/-- The whole application, src/index.js lines 63-116: route
dispatch over `GET /health`, `GET /`, `POST /ingest` (behind the
`auth` middleware), and the 404 catch-all.  `pingOk` is whether
the health check's `SELECT 1` succeeds. -/
def handle (env : Env) (oracle : DbOracle) (pingOk : Bool) (now : Nat)
    (st : Store) (req : Request) : Store × Response :=
  if req.method = "GET" ∧ req.path = "/health" then
    if pingOk then (st, ⟨200, okJson⟩) else (st, ⟨500, healthFailJson⟩)
  else if req.method = "GET" ∧ req.path = "/" then
    (st, ⟨200, greetingText⟩)
  else if req.method = "POST" ∧ req.path = "/ingest" then
    if !auth env.apiToken req then (st, ⟨401, unauthorizedJson⟩)
    else ingestHandler env oracle now st req
  else
    (st, ⟨404, notFoundJson⟩)

/-- Sequential processing of a list of timestamped requests,
threading the store. -/
def runSeq (env : Env) (oracle : DbOracle) (pingOk : Bool) (st : Store) :
    List (Nat × Request) → Store
  | [] => st
  | (now, r) :: rest =>
      runSeq env oracle pingOk (handle env oracle pingOk now st r).1 rest

/-- A request that the `/ingest` route processes successfully for
user identifier `uid`: right method and path, passing the `auth`
middleware, the IP allowlist and field validation, with `uid` as
its body's `userId`. -/
def ingestOkReq (env : Env) (uid : JsValue) (r : Request) : Prop :=
  r.method = "POST" ∧ r.path = "/ingest" ∧ auth env.apiToken r = true ∧
    ipAllowed env.allowIps r = true ∧ validBody (r.body.getD Body.empty) = true ∧
    (r.body.getD Body.empty).userId = some uid

instance (env : Env) (uid : JsValue) (r : Request) : Decidable (ingestOkReq env uid r) :=
  decidable_of_iff
    (r.method = "POST" ∧ r.path = "/ingest" ∧ auth env.apiToken r = true ∧
      ipAllowed env.allowIps r = true ∧ validBody (r.body.getD Body.empty) = true ∧
      (r.body.getD Body.empty).userId = some uid) Iff.rfl

/-! Concrete fixtures used to instantiate the theorems below. -/

/-- A configuration with a secret and no IP restriction. -/
def wEnv : Env := ⟨some "sec", none⟩

/-- A configuration with a secret and a one-address allowlist. -/
def wEnvIp : Env := ⟨some "sec", some "1.2.3.4"⟩

/-- A first well-formed ingestion body for user `"42"`. -/
def wBody1 : Body := ⟨some (.vStr "42"), some (.vStr "alice"), none, some (.vStr "hello")⟩

/-- A second body for user `"42"` with different attribute values. -/
def wBody2 : Body :=
  ⟨some (.vStr "42"), some (.vStr "alice2"), some (.vStr "Alice"), some (.vStr "hi again")⟩

/-- A valid ingestion request carrying `wBody1`. -/
def wReq1 : Request := ⟨"POST", "/ingest", some "Bearer sec", none, some "9.9.9.9", some wBody1⟩

/-- A valid ingestion request carrying `wBody2`. -/
def wReq2 : Request := ⟨"POST", "/ingest", some "Bearer sec", none, some "9.9.9.9", some wBody2⟩

/-- An ingestion request with a non-bearer authorization scheme. -/
def wReqBadScheme : Request :=
  ⟨"POST", "/ingest", some "Token abc", none, some "9.9.9.9", some wBody1⟩

/-- An ingestion request with no credentials and a peer address
outside `wEnvIp`'s allowlist. -/
def wReqNoAuthBadIp : Request := ⟨"POST", "/ingest", none, none, some "9.9.9.9", none⟩

/-- A valid ingestion request whose body lacks `username`. -/
def wReqMissingField : Request :=
  ⟨"POST", "/ingest", some "Bearer sec", none, some "9.9.9.9",
    some ⟨some (.vStr "42"), none, none, some (.vStr "hi")⟩⟩

/-- A valid ingestion request with no parsed body at all. -/
def wReqNoBody : Request := ⟨"POST", "/ingest", some "Bearer sec", none, some "9.9.9.9", none⟩

end Ingest

namespace Ingest

/-! ## Helper lemmas -/

/-- When the extracted token is empty, `auth` cannot accept: the
secret is either unset/empty (fail-closed) or non-empty and thus
distinct from the empty token. -/
theorem empty_token_rejected (apiToken : Option String) :
    jsStrFalsy apiToken = true ∨ some "" ≠ apiToken := by
  cases apiToken with
  | none => exact Or.inr (by simp)
  | some t =>
    by_cases ht : t = ""
    · exact Or.inl (by simp [jsStrFalsy, ht])
    · exact Or.inr (by simpa using fun hh => ht hh.symm)

/-- `auth` rejects exactly when the secret is falsy or the
extracted token differs from it. -/
theorem auth_eq_false_of (apiToken : Option String) (req : Request)
    (h : jsStrFalsy apiToken = true ∨ some (bearerToken req) ≠ apiToken) :
    auth apiToken req = false := by
  rw [auth, if_pos h]

/-- Updating matching user rows in place keeps exactly one row for
the conflicting identifier, carrying the new attribute values. -/
theorem filter_map_update (l : List UserRow) (uid un dn : JsValue)
    (h : (l.filter (fun u => u.id = uid)).length ≤ 1)
    (hany : l.any (fun u => u.id = uid) = true) :
    (l.map (fun u =>
        if u.id = uid then { u with username := un, display_name := dn } else u)).filter
      (fun u => u.id = uid) = [⟨uid, un, dn⟩] := by
  induction l with
  | nil => simp at hany
  | cons u l ih =>
    by_cases hu : u.id = uid
    · rw [List.filter_cons_of_pos (by simpa using hu)] at h
      have hrest : l.filter (fun u => u.id = uid) = [] := by
        apply List.length_eq_zero.mp
        simp only [List.length_cons] at h
        omega
      have hiden : ∀ x ∈ l, ¬ x.id = uid := by
        intro x hx hxx
        have hmem : x ∈ l.filter (fun u => u.id = uid) :=
          List.mem_filter.mpr ⟨hx, by simpa using hxx⟩
        rw [hrest] at hmem
        simp at hmem
      have hmap : l.map (fun u =>
          if u.id = uid then { u with username := un, display_name := dn } else u) = l := by
        rw [List.map_congr_left (g := id)]
        · simp
        · intro x hx; simp [hiden x hx]
      simp only [List.map_cons, if_pos hu, hmap]
      rw [List.filter_cons_of_pos (by simp [hu])]
      simp [hrest, hu]
    · simp only [List.map_cons, if_neg hu]
      rw [List.filter_cons_of_neg (by simpa using hu)]
      apply ih
      · rwa [List.filter_cons_of_neg (by simpa using hu)] at h
      · rcases List.any_eq_true.mp hany with ⟨x, hx, hxx⟩
        rcases List.mem_cons.mp hx with rfl | hxl
        · exact absurd (by simpa using hxx) hu
        · exact List.any_eq_true.mpr ⟨x, hxl, hxx⟩

/-- After an upsert for `uid` against a store holding at most one
row for `uid`, the store holds exactly one row for `uid`, with the
upserted values. -/
theorem filter_upsertUser (st : Store) (uid un dn : JsValue)
    (h : (st.users.filter (fun u => u.id = uid)).length ≤ 1) :
    (upsertUser st uid un dn).users.filter (fun u => u.id = uid) = [⟨uid, un, dn⟩] := by
  by_cases hany : st.users.any (fun u => u.id = uid) = true
  · simp only [upsertUser, if_pos hany]
    exact filter_map_update st.users uid un dn h hany
  · simp only [upsertUser, if_neg hany]
    have hnone : ∀ x ∈ st.users, ¬ x.id = uid := by
      intro x hx hxx
      exact hany (List.any_eq_true.mpr ⟨x, hx, by simpa using hxx⟩)
    rw [List.filter_append]
    rw [List.filter_eq_nil_iff.mpr (by intro x hx; simpa using hnone x hx)]
    simp

/-- The users upsert does not touch the `messages` table. -/
theorem upsertUser_messages (st : Store) (uid un dn : JsValue) :
    (upsertUser st uid un dn).messages = st.messages := by
  unfold upsertUser
  split <;> rfl

/-- A request satisfying `ingestOkReq` is processed by the full
application as one upsert followed by one message insert, with a
200 response. -/
theorem handle_ingest_ok (env : Env) (pingOk : Bool) (now : Nat) (st : Store)
    (req : Request) (uid : JsValue) (h : ingestOkReq env uid req) :
    handle env ⟨false, false⟩ pingOk now st req
      = (insertMessage
          (upsertUser st uid ((req.body.getD Body.empty).username.getD .vNull)
            (jsOrNull (req.body.getD Body.empty).displayName))
          uid ((req.body.getD Body.empty).message.getD .vNull) now,
        ⟨200, okJson⟩) := by
  obtain ⟨hm, hp, hauth, hip, hv, hu⟩ := h
  simp [handle, hm, hp, hauth, ingestHandler, hip, hv, ingestTxn, hu]

end Ingest

namespace Ingest

/-! ## Claim theorems -/

/-- Claim C1: for every `POST /ingest` request passing auth,
allowlist and field validation, if the message insert fails after
the user upsert succeeded within the same transaction, the store
is unchanged afterward (full rollback) and the handler responds
HTTP 500 with body `{"error":"server_error"}`. -/
theorem ingest_message_insert_failure_rolls_back (env : Env) (pingOk : Bool)
    (now : Nat) (st : Store) (req : Request)
    (hm : req.method = "POST") (hp : req.path = "/ingest")
    (hauth : auth env.apiToken req = true)
    (hip : ipAllowed env.allowIps req = true)
    (hv : validBody (req.body.getD Body.empty) = true) :
    handle env ⟨false, true⟩ pingOk now st req = (st, ⟨500, serverErrorJson⟩) := by
  simp [handle, hm, hp, hauth, ingestHandler, hip, hv, ingestTxn]

/-- Witness for C1 at a concrete valid request against the empty
store, with the message insert failing. -/
theorem ingest_message_insert_failure_rolls_back_witness :
    handle wEnv ⟨false, true⟩ true 0 ⟨[], []⟩ wReq1 = (⟨[], []⟩, ⟨500, serverErrorJson⟩) :=
  ingest_message_insert_failure_rolls_back wEnv true 0 ⟨[], []⟩ wReq1 rfl rfl
    (by decide) (by decide) (by decide)

/-- Claim C2: for every `POST /ingest` request, if no secret is
configured, or the authorization header is missing, or it does
not carry a bearer-scheme token, or the carried token is not
exactly equal to the configured secret, the response is HTTP 401
with body `{"error":"unauthorized"}` and the store is unchanged. -/
theorem ingest_unauthorized_401 (env : Env) (oracle : DbOracle) (pingOk : Bool)
    (now : Nat) (st : Store) (req : Request)
    (hm : req.method = "POST") (hp : req.path = "/ingest")
    (h : jsStrFalsy env.apiToken = true
       ∨ req.authorization = none
       ∨ strStartsWith (req.authorization.getD "") "Bearer " = false
       ∨ some (strDrop (req.authorization.getD "") 7) ≠ env.apiToken) :
    handle env oracle pingOk now st req = (st, ⟨401, unauthorizedJson⟩) := by
  have hauth : auth env.apiToken req = false := by
    apply auth_eq_false_of
    rcases h with h1 | h2 | h3 | h4
    · exact Or.inl h1
    · have hb : bearerToken req = "" := by
        simp only [bearerToken, h2]
        decide
      rw [hb]; exact empty_token_rejected env.apiToken
    · have hb : bearerToken req = "" := by simp [bearerToken, h3]
      rw [hb]; exact empty_token_rejected env.apiToken
    · by_cases hs : strStartsWith (req.authorization.getD "") "Bearer " = true
      · have hb : bearerToken req = strDrop (req.authorization.getD "") 7 := by
          simp [bearerToken, hs]
        rw [hb]; exact Or.inr h4
      · have hb : bearerToken req = "" := by simp [bearerToken, hs]
        rw [hb]; exact empty_token_rejected env.apiToken
  simp [handle, hm, hp, hauth]

/-- Witness for C2 at a concrete request whose authorization
header uses a non-bearer scheme. -/
theorem ingest_unauthorized_401_witness :
    handle wEnv ⟨false, false⟩ true 0 ⟨[], []⟩ wReqBadScheme
      = (⟨[], []⟩, ⟨401, unauthorizedJson⟩) :=
  ingest_unauthorized_401 wEnv ⟨false, false⟩ true 0 ⟨[], []⟩ wReqBadScheme rfl rfl
    (Or.inr (Or.inr (Or.inl (by decide))))

/-- Claim C3: for every non-empty sequence of successful
ingestions carrying the same `userId` against a store holding at
most one user row for that identifier, the store afterwards holds
exactly one user row for it, whose `username` and `display_name`
equal the values of the last ingestion (with a missing
`displayName` stored as null), plus one message row per
ingestion. -/
theorem ingest_same_user_sequence (env : Env) (pingOk : Bool) (uid : JsValue)
    (reqs : List (Nat × Request)) (hne : reqs ≠ []) (st0 : Store)
    (hok : ∀ p ∈ reqs, ingestOkReq env uid p.2)
    (hcount : (st0.users.filter (fun u => u.id = uid)).length ≤ 1) :
    ((runSeq env ⟨false, false⟩ pingOk st0 reqs).users.filter (fun u => u.id = uid)
        = [⟨uid, (((reqs.getLast hne).2.body.getD Body.empty).username.getD .vNull),
            jsOrNull (((reqs.getLast hne).2.body.getD Body.empty).displayName)⟩])
    ∧ (runSeq env ⟨false, false⟩ pingOk st0 reqs).messages
        = st0.messages
          ++ reqs.map (fun p =>
              ⟨uid, ((p.2.body.getD Body.empty).message.getD .vNull), p.1⟩) := by
  induction reqs generalizing st0 with
  | nil => exact absurd rfl hne
  | cons p rest ih =>
    obtain ⟨now, r⟩ := p
    have hr : ingestOkReq env uid r := hok (now, r) (List.mem_cons_self _ _)
    have hstep := handle_ingest_ok env pingOk now st0 r uid hr
    cases rest with
    | nil =>
      simp only [runSeq, hstep]
      constructor
      · rw [List.getLast_singleton]
        simp only [insertMessage]
        exact filter_upsertUser st0 uid _ _ hcount
      · simp [insertMessage, upsertUser_messages]
    | cons q rest2 =>
      have hne2 : q :: rest2 ≠ [] := List.cons_ne_nil _ _
      have hok2 : ∀ x ∈ q :: rest2, ingestOkReq env uid x.2 := by
        intro x hx
        exact hok x (List.mem_cons_of_mem _ hx)
      set st1 := (handle env ⟨false, false⟩ pingOk now st0 r).1 with hst1
      have hcount1 : (st1.users.filter (fun u => u.id = uid)).length ≤ 1 := by
        rw [hst1, hstep]
        simp only [insertMessage]
        rw [filter_upsertUser st0 uid _ _ hcount]
        simp
      have hrest := ih hne2 st1 hok2 hcount1
      constructor
      · rw [show ((now, r) :: q :: rest2).getLast (List.cons_ne_nil _ _)
            = (q :: rest2).getLast hne2 from List.getLast_cons hne2]
        simpa only [runSeq] using hrest.1
      · have hmsg : st1.messages
            = st0.messages
              ++ [⟨uid, ((r.body.getD Body.empty).message.getD .vNull), now⟩] := by
          rw [hst1, hstep]
          simp [insertMessage, upsertUser_messages]
        calc (runSeq env ⟨false, false⟩ pingOk st0 ((now, r) :: q :: rest2)).messages
            = (runSeq env ⟨false, false⟩ pingOk st1 (q :: rest2)).messages := by
              simp only [runSeq]
          _ = st1.messages ++ (q :: rest2).map
                (fun p => ⟨uid, ((p.2.body.getD Body.empty).message.getD .vNull), p.1⟩) :=
              hrest.2
          _ = st0.messages ++ ((now, r) :: q :: rest2).map
                (fun p => ⟨uid, ((p.2.body.getD Body.empty).message.getD .vNull), p.1⟩) := by
              rw [hmsg]
              simp

/-- Witness for C3: two successful ingestions for user `"42"`
against the empty store leave one user row with the second
ingestion's values (display name from the second body) and two
message rows. -/
theorem ingest_same_user_sequence_witness :
    ((runSeq wEnv ⟨false, false⟩ true ⟨[], []⟩ [(5, wReq1), (6, wReq2)]).users.filter
        (fun u => u.id = .vStr "42") = [⟨.vStr "42", .vStr "alice2", .vStr "Alice"⟩])
    ∧ (runSeq wEnv ⟨false, false⟩ true ⟨[], []⟩ [(5, wReq1), (6, wReq2)]).messages
        = [⟨.vStr "42", .vStr "hello", 5⟩, ⟨.vStr "42", .vStr "hi again", 6⟩] := by
  have h := ingest_same_user_sequence wEnv true (.vStr "42") [(5, wReq1), (6, wReq2)]
    (by decide) ⟨[], []⟩ (by decide) (by decide)
  exact h

end Ingest

namespace Ingest

/-- Counterexample to claim C4 as stated: a request with no valid
token and a non-allowlisted peer address is decided by the
credential check, not the IP allowlist — the response is 401, not
the allowlist's 403. -/
theorem ingest_order_counterexample :
    auth wEnvIp.apiToken wReqNoAuthBadIp = false
    ∧ ipAllowed wEnvIp.allowIps wReqNoAuthBadIp = false
    ∧ (handle wEnvIp ⟨false, false⟩ true 0 ⟨[], []⟩ wReqNoAuthBadIp).2.status = 401
    ∧ ¬ (handle wEnvIp ⟨false, false⟩ true 0 ⟨[], []⟩ wReqNoAuthBadIp).2.status = 403 := by
  decide

/-- Claim C4 (amended): for every `POST /ingest` request the
checks are evaluated in the order credential check (router-level
middleware) first, then IP allowlist, then field validation; a
request failing the credential check receives 401 regardless of
its origin address, a request passing it from a non-allowlisted
address receives 403 regardless of its fields, and a request
passing both with invalid fields receives 400. -/
theorem ingest_order_auth_before_ip (env : Env) (oracle : DbOracle) (pingOk : Bool)
    (now : Nat) (st : Store) (req : Request)
    (hm : req.method = "POST") (hp : req.path = "/ingest") :
    (auth env.apiToken req = false →
      handle env oracle pingOk now st req = (st, ⟨401, unauthorizedJson⟩))
    ∧ (auth env.apiToken req = true → ipAllowed env.allowIps req = false →
      handle env oracle pingOk now st req = (st, ⟨403, forbiddenIpJson⟩))
    ∧ (auth env.apiToken req = true → ipAllowed env.allowIps req = true →
      validBody (req.body.getD Body.empty) = false →
      handle env oracle pingOk now st req = (st, ⟨400, missingFieldsJson⟩)) := by
  refine ⟨fun hauth => ?_, fun hauth hip => ?_, fun hauth hip hv => ?_⟩
  · simp [handle, hm, hp, hauth]
  · simp [handle, hm, hp, hauth, ingestHandler, hip]
  · simp [handle, hm, hp, hauth, ingestHandler, hip, hv]

/-- Witness for the amended C4: the counterexample request gets
the credential check's 401 even though its address also fails the
allowlist. -/
theorem ingest_order_auth_before_ip_witness :
    handle wEnvIp ⟨false, false⟩ true 0 ⟨[], []⟩ wReqNoAuthBadIp
      = (⟨[], []⟩, ⟨401, unauthorizedJson⟩) :=
  (ingest_order_auth_before_ip wEnvIp ⟨false, false⟩ true 0 ⟨[], []⟩ wReqNoAuthBadIp
    rfl rfl).1 (by decide)

/-- Claim C5: for every authenticated, allowlisted `POST /ingest`
request in which `userId`, `username` or `message` is absent or
falsy, the response is HTTP 400 with the `missing fields` body and
the store is unchanged. -/
theorem ingest_missing_fields_400 (env : Env) (oracle : DbOracle) (pingOk : Bool)
    (now : Nat) (st : Store) (req : Request)
    (hm : req.method = "POST") (hp : req.path = "/ingest")
    (hauth : auth env.apiToken req = true)
    (hip : ipAllowed env.allowIps req = true)
    (h : jsTruthy (req.body.getD Body.empty).userId = false
       ∨ jsTruthy (req.body.getD Body.empty).username = false
       ∨ jsTruthy (req.body.getD Body.empty).message = false) :
    handle env oracle pingOk now st req = (st, ⟨400, missingFieldsJson⟩) := by
  have hv : validBody (req.body.getD Body.empty) = false := by
    rcases h with h | h | h <;> simp [validBody, h]
  simp [handle, hm, hp, hauth, ingestHandler, hip, hv]

/-- Witness for C5 at a concrete request whose body lacks
`username`. -/
theorem ingest_missing_fields_400_witness :
    handle wEnv ⟨false, false⟩ true 0 ⟨[], []⟩ wReqMissingField
      = (⟨[], []⟩, ⟨400, missingFieldsJson⟩) :=
  ingest_missing_fields_400 wEnv ⟨false, false⟩ true 0 ⟨[], []⟩ wReqMissingField rfl rfl
    (by decide) (by decide) (Or.inr (Or.inl (by decide)))

/-- Claim C6: for every authenticated `POST /ingest` request, an
empty configured allowlist always allows the request; a non-empty
allowlist allows it exactly when the extracted client address (the
forwarded-for header's first entry when present, else the peer
address) is a member, and a non-member receives HTTP 403 with body
`{"error":"forbidden_ip"}` with the store unchanged. -/
theorem ingest_ip_allowlist_behavior (env : Env) (oracle : DbOracle) (pingOk : Bool)
    (now : Nat) (st : Store) (req : Request)
    (hm : req.method = "POST") (hp : req.path = "/ingest")
    (hauth : auth env.apiToken req = true) :
    (allowIpsList env.allowIps = [] → ipAllowed env.allowIps req = true)
    ∧ (allowIpsList env.allowIps ≠ [] →
        (ipAllowed env.allowIps req = true ↔ clientIp req ∈ allowIpsList env.allowIps))
    ∧ (allowIpsList env.allowIps ≠ [] → clientIp req ∉ allowIpsList env.allowIps →
        handle env oracle pingOk now st req = (st, ⟨403, forbiddenIpJson⟩)) := by
  refine ⟨fun he => by simp [ipAllowed, he], fun hne => ?_, fun hne hmem => ?_⟩
  · have hlen : ¬ (allowIpsList env.allowIps).length = 0 := by
      simpa [List.length_eq_zero] using hne
    simp [ipAllowed, hlen, List.elem_iff]
  · have hip : ipAllowed env.allowIps req = false := by
      have hlen : ¬ (allowIpsList env.allowIps).length = 0 := by
        simpa [List.length_eq_zero] using hne
      simp [ipAllowed, hlen, List.elem_iff, hmem]
    simp [handle, hm, hp, hauth, ingestHandler, hip]

/-- Witness for C6: a valid token from a non-allowlisted peer
address receives 403 against the one-address allowlist. -/
theorem ingest_ip_allowlist_behavior_witness :
    handle wEnvIp ⟨false, false⟩ true 0 ⟨[], []⟩ wReq1 = (⟨[], []⟩, ⟨403, forbiddenIpJson⟩) :=
  (ingest_ip_allowlist_behavior wEnvIp ⟨false, false⟩ true 0 ⟨[], []⟩ wReq1 rfl rfl
    (by decide)).2.2 (by decide) (by decide)

/-- Claim C7: every `GET /health` request — with no authentication
consulted — receives HTTP 200 `{"ok":true}` when the liveness
query succeeds and HTTP 500 `{"ok":false,"error":"db_unreachable"}`
when it fails, for any configuration and store. -/
theorem health_endpoint_behavior (env : Env) (oracle : DbOracle) (pingOk : Bool)
    (now : Nat) (st : Store) (req : Request)
    (hm : req.method = "GET") (hp : req.path = "/health") :
    handle env oracle pingOk now st req
      = (st, if pingOk then ⟨200, okJson⟩ else ⟨500, healthFailJson⟩) := by
  cases pingOk <;> simp [handle, hm, hp]

/-- Witness for C7: a health request with the store unreachable
yields the 500 failure shape. -/
theorem health_endpoint_behavior_witness :
    handle wEnv ⟨false, false⟩ false 0 ⟨[], []⟩ ⟨"GET", "/health", none, none, none, none⟩
      = (⟨[], []⟩, ⟨500, healthFailJson⟩) :=
  health_endpoint_behavior wEnv ⟨false, false⟩ false 0 ⟨[], []⟩
    ⟨"GET", "/health", none, none, none, none⟩ rfl rfl

/-- Claim C8: every request matching none of `GET /health`,
`GET /` and `POST /ingest` receives HTTP 404 with body
`{"error":"not_found"}` and leaves the store unchanged. -/
theorem unmatched_route_404 (env : Env) (oracle : DbOracle) (pingOk : Bool)
    (now : Nat) (st : Store) (req : Request)
    (h1 : ¬(req.method = "GET" ∧ req.path = "/health"))
    (h2 : ¬(req.method = "GET" ∧ req.path = "/"))
    (h3 : ¬(req.method = "POST" ∧ req.path = "/ingest")) :
    handle env oracle pingOk now st req = (st, ⟨404, notFoundJson⟩) := by
  rw [handle, if_neg h1, if_neg h2, if_neg h3]

/-- Witness for C8: `GET /nope` yields the 404 body. -/
theorem unmatched_route_404_witness :
    handle wEnv ⟨false, false⟩ true 0 ⟨[], []⟩ ⟨"GET", "/nope", none, none, none, none⟩
      = (⟨[], []⟩, ⟨404, notFoundJson⟩) :=
  unmatched_route_404 wEnv ⟨false, false⟩ true 0 ⟨[], []⟩
    ⟨"GET", "/nope", none, none, none, none⟩ (by decide) (by decide) (by decide)

/-- Claim C9: the credential check's accept/reject outcome is a
function of the request's authorization header and the configured
secret alone: two requests with the same authorization header get
the same outcome under the same secret, whatever their method,
path, body or origin addresses. -/
theorem auth_function_of_header_and_secret (apiToken : Option String) (r1 r2 : Request)
    (h : r1.authorization = r2.authorization) :
    auth apiToken r1 = auth apiToken r2 := by
  simp [auth, bearerToken, h]

/-- Witness for C9: two requests sharing a header but differing in
body and address get the same auth outcome. -/
theorem auth_function_of_header_and_secret_witness :
    auth (some "sec") wReq1 = auth (some "sec") wReqNoBody :=
  auth_function_of_header_and_secret (some "sec") wReq1 wReqNoBody rfl

/-- Claim C10: an authenticated, allowlisted `POST /ingest`
request with no parsed body is handled totally — the body defaults
to the empty object and the response is the HTTP 400
missing-fields error, with the store unchanged. -/
theorem ingest_absent_body_400 (env : Env) (oracle : DbOracle) (pingOk : Bool)
    (now : Nat) (st : Store) (req : Request)
    (hm : req.method = "POST") (hp : req.path = "/ingest")
    (hauth : auth env.apiToken req = true)
    (hip : ipAllowed env.allowIps req = true)
    (hb : req.body = none) :
    handle env oracle pingOk now st req = (st, ⟨400, missingFieldsJson⟩) := by
  have hv : validBody (req.body.getD Body.empty) = false := by
    simp [hb, validBody, Body.empty, jsTruthy]
  simp [handle, hm, hp, hauth, ingestHandler, hip, hv]

/-- Witness for C10: a request with valid token and no body gets
the 400 missing-fields response. -/
theorem ingest_absent_body_400_witness :
    handle wEnv ⟨false, false⟩ true 0 ⟨[], []⟩ wReqNoBody
      = (⟨[], []⟩, ⟨400, missingFieldsJson⟩) :=
  ingest_absent_body_400 wEnv ⟨false, false⟩ true 0 ⟨[], []⟩ wReqNoBody rfl rfl
    (by decide) (by decide) rfl

end Ingest
